import Mathlib

/-!
Shallow embedding of the Invoice-Manager repository
(src/database.py, src/models.py, src/server.py) in Lean 4,
with theorems checking the natural-language specification against the code.

Python JSON values are modelled by `JValue`; Python dicts parsed from JSON
are association lists with unique keys.  Machine floats appearing as JSON
numbers are modelled as rationals.  Calls to external collaborators
(`datetime.now()`, pydantic's email validator) are modelled as explicit
parameters, and `str.lower` is modelled on its ASCII behaviour, which is
all the program relies on.
-/

namespace InvoiceManager

/-- Python `str.lower` (ASCII behaviour). -/
def pyLower (s : String) : String := ⟨s.data.map Char.toLower⟩

/-- Python `needle in hay` on strings: substring containment
(the empty needle is contained in everything). -/
def containsSub (hay needle : List Char) : Bool :=
  match hay with
  | [] => needle.isEmpty
  | c :: t => needle.isPrefixOf (c :: t) || containsSub t needle

/-- Python string membership `needle in hay`. -/
def strIn (needle hay : String) : Bool := containsSub hay.data needle.data

/-- A Python number: `int` and `float` are distinct types, and JSON parsing
produces both.  A float is modelled as the rational it denotes. -/
inductive PyNum where
  | pint (n : Int)
  | pfloat (q : Rat)
deriving Repr, DecidableEq

/-- The rational denoted by a Python number. -/
def PyNum.toRat : PyNum → Rat
  | .pint n => (n : Rat)
  | .pfloat q => q

/-- One step of Python's `max`: keep the accumulator unless the next
element is strictly greater (so ties keep the earlier element).  The
`int`/`int` case is kept syntactically separate so that it computes
without rational arithmetic. -/
def PyNum.pmaxStep (acc x : PyNum) : PyNum :=
  match acc, x with
  | .pint a, .pint b => if a < b then .pint b else .pint a
  | a, b => if a.toRat < b.toRat then b else a

/-- Python `x + 1`: an `int` stays an `int`, a `float` stays a `float`. -/
def PyNum.addOne : PyNum → PyNum
  | .pint n => .pint (n + 1)
  | .pfloat q => .pfloat (q + 1)

/-- Python `max(iterable, default=0)`: `0` only when the iterable is empty
(a negative maximum is returned as-is). -/
def pyMaxDefault0 : List PyNum → PyNum
  | [] => .pint 0
  | x :: rest => rest.foldl PyNum.pmaxStep x

/-- A JSON value as produced by Python's `json.load`.  Python distinguishes
`int`, `bool` and `float` results, so the model does too. -/
inductive JValue where
  | jnull
  | jbool (b : Bool)
  | jint (n : Int)
  | jnum (q : Rat)
  | jstr (s : String)
  | jarr (xs : List JValue)
  | jobj (fields : List (String × JValue))
deriving Repr

/-- `dict.get(k)`: the value at the first occurrence of key `k`. -/
def jLookup (fields : List (String × JValue)) (k : String) : Option JValue :=
  match fields with
  | [] => none
  | (k', v) :: rest => if k' = k then some v else jLookup rest k

/-- `d[k] = v` on a Python dict: replace the value at `k` if present
(keeping insertion order), otherwise append the new key at the end. -/
def jSet (fields : List (String × JValue)) (k : String) (v : JValue) :
    List (String × JValue) :=
  match fields with
  | [] => [(k, v)]
  | (k', v') :: rest =>
      if k' = k then (k', v) :: rest else (k', v') :: jSet rest k v

/-- `isinstance(x, int)` on a JSON-parsed value.  Python's `bool` is a
subclass of `int`, so JSON `true`/`false` also pass this check. -/
def pyIsInt : JValue → Bool
  | .jint _ => true
  | .jbool _ => true
  | _ => false

/-- The value of `c.get("id", 0)` for a record `c`, when that value can
flow through `max(...) + 1` without raising; `none` models a raised
exception.  A non-mapping record raises `AttributeError` at `.get`; a
present `id` that is neither an `int`, a `bool` nor a `float` makes either
the `max` comparison or the final `+ 1` raise `TypeError`.  Python
booleans order and add as `0`/`1`. -/
def idNum : JValue → Option PyNum
  | .jobj fs =>
      match jLookup fs "id" with
      | none => some (.pint 0)
      | some (.jint n) => some (.pint n)
      | some (.jnum q) => some (.pfloat q)
      | some (.jbool b) => some (.pint (if b then 1 else 0))
      | some _ => none
  | _ => none

/-- Render a Python number back into a JSON value. -/
def pyNumToJ : PyNum → JValue
  | .pint n => .jint n
  | .pfloat q => .jnum q

/-- `_get_default_clients` / `_get_default_invoices`, keyed by the
collection name. -/
def defaultState (key : String) : JValue :=
  .jobj [(key, .jarr []), ("next_id", .jint 1)]

/-- `max((c.get("id", 0) for c in records), default=0) + 1`, with `none`
when the computation raises (caught by the enclosing `except Exception`). -/
def recomputedNextId (records : List JValue) : Option PyNum :=
  (records.mapM idNum).map (fun ns => (pyMaxDefault0 ns).addOne)

/-- The body of `load_clients` / `load_invoices` on successfully parsed
JSON `data` (`key` is `"clients"` or `"invoices"`):
mirror of src/database.py lines 42-58 / 76-92. -/
def loadCollection (key : String) (data : JValue) : JValue :=
  match data with
  | .jobj fs =>
      match jLookup fs key with
      | some (.jarr records) =>
          match jLookup fs "next_id" with
          | some v =>
              if pyIsInt v then .jobj fs
              else
                match recomputedNextId records with
                | some m => .jobj (jSet fs "next_id" (pyNumToJ m))
                | none => defaultState key
          | none =>
              match recomputedNextId records with
              | some m => .jobj (jSet fs "next_id" (pyNumToJ m))
              | none => defaultState key
      | _ => defaultState key
  | _ => defaultState key

/-- A stored collection file: `none` = the file does not exist,
`some none` = the file exists but fails to parse, `some (some v)` = the
file parses to `v`. -/
def loadFile (key : String) (file : Option (Option JValue)) : JValue :=
  match file with
  | none => defaultState key
  | some none => defaultState key
  | some (some v) => loadCollection key v

/-- The well-formed state the operation layer saves:
`{key: records, "next_id": n}`. -/
def mkState (key : String) (records : List JValue) (n : Int) : JValue :=
  .jobj [(key, .jarr records), ("next_id", .jint n)]

/-- `save_clients` / `save_invoices`: `json.dump` writes the state,
producing a file that parses back to the same JSON tree. -/
def saveFile (key : String) (records : List JValue) (n : Int) :
    Option (Option JValue) :=
  some (some (mkState key records n))

def load_clients (file : Option (Option JValue)) : JValue :=
  loadFile "clients" file

def load_invoices (file : Option (Option JValue)) : JValue :=
  loadFile "invoices" file

def save_clients (records : List JValue) (n : Int) : Option (Option JValue) :=
  saveFile "clients" records n

def save_invoices (records : List JValue) (n : Int) : Option (Option JValue) :=
  saveFile "invoices" records n

/-! ## Operation layer (src/server.py)

The server operations act on the structured records the operation layer
itself creates, so they are modelled over typed states rather than raw
JSON.  Persistence (`save_clients`/`save_invoices`) keeps exactly the
state handed to it, so an operation's "persisted" result is the state it
returns.  `datetime.now().isoformat()` and pydantic's email validator are
external collaborators, passed in as explicit parameters. -/

/-- A client dict as built by `add_client` (src/server.py lines 44-62). -/
structure StoredClient where
  id : Int
  name : String
  email : String
  phone : Option String
  address : Option String
  company : Option String
  created_at : String
  updated_at : String
deriving Repr, DecidableEq

/-- The clients collection state `{clients, next_id}`. -/
structure ClientsDB where
  clients : List StoredClient
  next_id : Int
deriving Repr, DecidableEq

/-- `get_client_by_id` (src/database.py lines 102-108): first record with
the given id, `None` when absent. -/
def get_client_by_id (db : ClientsDB) (client_id : Int) : Option StoredClient :=
  db.clients.find? (fun c => c.id == client_id)

/-- `add_client` (src/server.py lines 43-68).  `validEmail` stands for
pydantic's `EmailStr` validator; `t1` and `t2` are the values of the two
separate `datetime.now().isoformat()` calls on lines 61 and 62.  Pydantic
accepts the input iff `name` is non-empty (min_length=1) and the email
validates; on rejection nothing is loaded or saved.  Returns the new
client and the persisted state. -/
def add_client (validEmail : String → Bool) (t1 t2 : String)
    (name email : String) (phone address company : Option String)
    (db : ClientsDB) : Option (StoredClient × ClientsDB) :=
  if name ≠ "" ∧ validEmail email = true then
    let cl : StoredClient :=
      { id := db.next_id, name := name, email := email, phone := phone,
        address := address, company := company, created_at := t1, updated_at := t2 }
    some (cl, { clients := db.clients ++ [cl], next_id := db.next_id + 1 })
  else
    none

/-- `get_client` (src/server.py lines 116-129): envelope around the lookup
(`some` = success envelope, `none` = not-found envelope). -/
def get_client (db : ClientsDB) (client_id : Int) : Option StoredClient :=
  get_client_by_id db client_id

/-- Python truthiness of an optional string: `None` and `""` are falsy. -/
def pyTruthy : Option String → Bool
  | none => false
  | some s => s ≠ ""

/-- One `query`/`email` filter step of `search_clients` (src/server.py
lines 95-101): a falsy filter constrains nothing, otherwise
case-insensitive substring containment in the field. -/
def filterPass (filt : Option String) (field : String) : Bool :=
  match filt with
  | none => true
  | some f => if f ≠ "" then strIn (pyLower f) (pyLower field) else true

/-- The `company` filter of `search_clients` (src/server.py lines
103-107): a truthy filter with a falsy stored company excludes the
client; with a truthy stored company it is a case-insensitive substring
test. -/
def companyPass (filt : Option String) (company : Option String) : Bool :=
  match filt with
  | none => true
  | some f =>
      if f ≠ "" then
        match company with
        | some cs => if cs ≠ "" then strIn (pyLower f) (pyLower cs) else false
        | none => false
      else true

/-- `search_clients` (src/server.py lines 71-112): AND of the three
filters, returning `{count, clients}`. -/
def search_clients (db : ClientsDB) (query email company : Option String) :
    Nat × List StoredClient :=
  let results := db.clients.filter fun c =>
    filterPass query c.name && filterPass email c.email && companyPass company c.company
  (results.length, results)

/-- A stored invoice line item (`InvoiceItem.model_dump()`,
src/models.py lines 22-30).  Float fields are modelled as rationals. -/
structure StoredItem where
  description : String
  quantity : Rat
  unit_price : Rat
deriving Repr, DecidableEq

/-- A loosely-typed input item dict for `create_invoice`: which of the
three required keys are present, and the values used when they are. -/
structure RawItem where
  hasDescription : Bool
  hasQuantity : Bool
  hasUnitPrice : Bool
  description : String
  quantity : Rat
  unit_price : Rat
deriving Repr, DecidableEq

/-- An invoice dict as built by `create_invoice` (src/server.py lines
206-216). -/
structure StoredInvoice where
  id : Int
  client_id : Int
  client_name : String
  items : List StoredItem
  status : String
  notes : Option String
  created_at : String
  due_date : Option String
  total : Rat
deriving Repr, DecidableEq

/-- The invoices collection state `{invoices, next_id}`. -/
structure InvoicesDB where
  invoices : List StoredInvoice
  next_id : Int
deriving Repr, DecidableEq

/-- `valid_statuses` (src/server.py lines 169 and 301). -/
def valid_statuses : List String := ["draft", "sent", "paid", "overdue"]

/-- The failure envelopes of `create_invoice`, in source order. -/
inductive InvoiceError where
  | clientNotFound (client_id : Int)
  | invalidStatus
  | noItems
  | itemMissingFields (idx : Nat) (missing : List String)
  | itemInvalid (idx : Nat)
deriving Repr, DecidableEq

/-- `[f for f in required_fields if f not in item]` (src/server.py lines
178-179), in the source's field order. -/
def missingFields (it : RawItem) : List String :=
  (if it.hasDescription then [] else ["description"]) ++
  (if it.hasQuantity then [] else ["quantity"]) ++
  (if it.hasUnitPrice then [] else ["unit_price"])

/-- Pydantic's `InvoiceItem` field validation (src/models.py lines 24-26):
non-empty description, `quantity > 0`, `unit_price >= 0`. -/
def itemOk (it : RawItem) : Bool :=
  it.description ≠ "" && decide (0 < it.quantity) && decide (0 ≤ it.unit_price)

/-- The item loop of `create_invoice` (src/server.py lines 176-201):
per item in order, the missing-field check precedes pydantic validation,
and errors carry the 1-based index `i + 1`. -/
def validateItems (i : Nat) : List RawItem → Except InvoiceError (List StoredItem)
  | [] => .ok []
  | it :: rest =>
      if missingFields it ≠ [] then
        .error (.itemMissingFields (i + 1) (missingFields it))
      else if itemOk it then
        match validateItems (i + 1) rest with
        | .ok tail => .ok (⟨it.description, it.quantity, it.unit_price⟩ :: tail)
        | .error e => .error e
      else
        .error (.itemInvalid (i + 1))

/-- Python `sum(...)`: left fold with initial value `0`. -/
def pySum (qs : List Rat) : Rat := qs.foldl (fun a b => a + b) 0

/-- `create_invoice` (src/server.py lines 144-222).  `now` is the value of
the `datetime.now().isoformat()` call on line 213.  On success returns the
new invoice and the persisted invoices state. -/
def create_invoice (cdb : ClientsDB) (db : InvoicesDB) (client_id : Int)
    (items : List RawItem) (notes : Option String) (due_date : Option String)
    (status : String) (now : String) :
    Except InvoiceError (StoredInvoice × InvoicesDB) :=
  match get_client_by_id cdb client_id with
  | none => .error (.clientNotFound client_id)
  | some client =>
      if valid_statuses.contains (pyLower status) = false then
        .error .invalidStatus
      else if items.isEmpty then
        .error .noItems
      else
        match validateItems 0 items with
        | .error e => .error e
        | .ok goodItems =>
            let total := pySum (goodItems.map fun it => it.quantity * it.unit_price)
            let inv : StoredInvoice :=
              { id := db.next_id, client_id := client_id,
                client_name := client.name, items := goodItems,
                status := pyLower status, notes := notes, created_at := now,
                due_date := due_date, total := total }
            .ok (inv, { invoices := db.invoices ++ [inv], next_id := db.next_id + 1 })

/-- The result envelope of `update_invoice_status`. -/
inductive UpdateStatusResult where
  | invalidStatus
  | notFound
  | updated (inv : StoredInvoice)
deriving Repr, DecidableEq

/-- The loop of `update_invoice_status` (src/server.py lines 306-310):
mutate the first invoice with the given id, returning the new list and the
mutated record. -/
def setStatusFirst (invoice_id : Int) (st : String) :
    List StoredInvoice → Option (List StoredInvoice × StoredInvoice)
  | [] => none
  | inv :: rest =>
      if inv.id = invoice_id then
        let upd := { inv with status := st }
        some (upd :: rest, upd)
      else
        match setStatusFirst invoice_id st rest with
        | some (l, u) => some (inv :: l, u)
        | none => none

/-- `update_invoice_status` (src/server.py lines 289-312): the enum check
comes first (no load or save on failure); on a hit the new list is saved,
on a miss nothing is saved.  Returns the envelope and the resulting
persisted state. -/
def update_invoice_status (db : InvoicesDB) (invoice_id : Int) (status : String) :
    UpdateStatusResult × InvoicesDB :=
  if valid_statuses.contains (pyLower status) = false then
    (.invalidStatus, db)
  else
    match setStatusFirst invoice_id (pyLower status) db.invoices with
    | some (l, u) => (.updated u, { invoices := l, next_id := db.next_id })
    | none => (.notFound, db)

/-- `DashboardStats` (src/models.py lines 48-55). -/
structure DashboardStats where
  total_clients : Nat
  total_invoices : Nat
  total_revenue : Rat
  pending_invoices : Nat
  paid_invoices : Nat
  draft_invoices : Nat
deriving Repr, DecidableEq

/-- The statistics part of `dashboard` (src/server.py lines 323-340); the
`recent_invoices`/`recent_clients` lists are not modelled here. -/
def dashboard (cdb : ClientsDB) (db : InvoicesDB) : DashboardStats :=
  { total_clients := cdb.clients.length
    total_invoices := db.invoices.length
    total_revenue :=
      pySum ((db.invoices.filter fun inv => inv.status == "paid").map fun inv => inv.total)
    pending_invoices :=
      (db.invoices.filter fun inv => inv.status == "sent" || inv.status == "overdue").length
    paid_invoices := (db.invoices.filter fun inv => inv.status == "paid").length
    draft_invoices := (db.invoices.filter fun inv => inv.status == "draft").length }

/-- The clients states reachable from a fresh store through the operation
layer: the initial default state, followed by any number of successful
`add_client` calls (the only operation that mutates the clients
collection). -/
inductive ReachableC : ClientsDB → Prop where
  | init : ReachableC { clients := [], next_id := 1 }
  | add (v : String → Bool) (t1 t2 name email : String)
      (phone address company : Option String)
      (db : ClientsDB) (cl : StoredClient) (db2 : ClientsDB) :
      ReachableC db →
      add_client v t1 t2 name email phone address company db = some (cl, db2) →
      ReachableC db2

/-- The records list of a loaded state. -/
def recordsOf (key : String) : JValue → Option JValue
  | .jobj fs => jLookup fs key
  | _ => none

/-- `max` over a list of ints with `0` only for the empty list
(mirrors `max(iterable, default=0)` when every element is an int). -/
def intMaxD0 : List Int → Int
  | [] => 0
  | x :: rest => rest.foldl max x

/-! ## Helper lemmas -/

theorem jLookup_jSet_ne (fs : List (String × JValue)) (k k' : String) (v : JValue)
    (h : k' ≠ k) : jLookup (jSet fs k v) k' = jLookup fs k' := by
  induction fs with
  | nil =>
      simp only [jSet, jLookup]
      rw [if_neg (fun hh => h hh.symm)]
  | cons hd tl ih =>
      obtain ⟨k0, v0⟩ := hd
      by_cases hk : k0 = k
      · subst hk
        simp only [jSet, if_pos rfl, jLookup]
        by_cases hk' : k0 = k'
        · exact absurd hk'.symm h
        · simp [hk']
      · simp only [jSet, if_neg hk, jLookup]
        by_cases hk' : k0 = k'
        · simp [hk']
        · simp [hk', ih]

theorem pmaxStep_pint (a b : Int) :
    PyNum.pmaxStep (.pint a) (.pint b) = .pint (max a b) := by
  simp only [PyNum.pmaxStep]
  rcases lt_trichotomy a b with h | h | h
  · rw [if_pos h, max_eq_right h.le]
  · subst h; simp
  · rw [if_neg (not_lt.mpr h.le), max_eq_left h.le]

theorem foldl_pmaxStep_pint (l : List Int) (a : Int) :
    (l.map PyNum.pint).foldl PyNum.pmaxStep (.pint a) = .pint (l.foldl max a) := by
  induction l generalizing a with
  | nil => rfl
  | cons x xs ih => simp [List.foldl, pmaxStep_pint, ih]

theorem pyMaxDefault0_pint (ids : List Int) :
    pyMaxDefault0 (ids.map PyNum.pint) = .pint (intMaxD0 ids) := by
  cases ids with
  | nil => rfl
  | cons x xs => simp [pyMaxDefault0, intMaxD0, foldl_pmaxStep_pint]

/-! ## Claims -/

/-- C8: saving a well-formed collection state (a records list and an
integer next_id) and loading it back yields a state with identical
records and identical next_id, for both collections. -/
theorem save_load_roundtrip (records : List JValue) (n : Int) :
    load_clients (save_clients records n) = mkState "clients" records n ∧
    load_invoices (save_invoices records n) = mkState "invoices" records n :=
  ⟨rfl, rfl⟩

/-- C1, counterexample: the stored content
`{"clients": ["x"]}` has a valid (list-typed) records list and a missing
next_id, yet load returns the full default state: the record `"x"` is
dropped, because the id recomputation `max(c.get("id", 0) ...)` raises on
the non-mapping record and the handler resets everything. -/
theorem load_salvage_cex :
    recordsOf "clients"
        (loadCollection "clients" (.jobj [("clients", .jarr [.jstr "x"])])) =
      some (.jarr []) ∧
    some (JValue.jarr []) ≠ some (JValue.jarr [.jstr "x"]) :=
  ⟨rfl, by simp⟩

/-- C1, amended: for stored content that is a mapping, a missing or
non-list records list resets the whole state to defaults; a valid records
list whose elements all survive the id computation (here: mappings with
int ids, absent ids counting as 0) together with a missing or non-int
next_id yields the same mapping with next_id recomputed as
`max(ids) + 1` (`1` when the list is empty) and the records unchanged.
(When some record makes the id computation raise — e.g. a non-mapping
element — the state resets to defaults instead, as the counterexample
shows.) -/
theorem load_salvages_records (key : String) (fs : List (String × JValue))
    (records : List JValue) (ids : List Int)
    (hkey : key ≠ "next_id")
    (hrec : jLookup fs key = some (.jarr records))
    (hids : records.mapM idNum = some (ids.map PyNum.pint))
    (hbad : ∀ v, jLookup fs "next_id" = some v → pyIsInt v = false) :
    (∀ gs : List (String × JValue),
        (∀ w, jLookup gs key = some w → ∀ xs, w ≠ .jarr xs) →
        loadCollection key (.jobj gs) = defaultState key) ∧
    loadCollection key (.jobj fs) =
      .jobj (jSet fs "next_id" (.jint (intMaxD0 ids + 1))) ∧
    jLookup (jSet fs "next_id" (.jint (intMaxD0 ids + 1))) key =
      some (.jarr records) ∧
    (ids = [] → intMaxD0 ids + 1 = 1) := by
  refine ⟨?_, ?_, ?_, ?_⟩
  · intro gs hgs
    simp only [loadCollection]
    cases hw : jLookup gs key with
    | none => rfl
    | some w =>
        have := hgs w hw
        cases w with
        | jarr xs => exact absurd rfl (this xs)
        | jnull => rfl
        | jbool b => rfl
        | jint n => rfl
        | jnum q => rfl
        | jstr s => rfl
        | jobj fields => rfl
  · have hre : recomputedNextId records = some (PyNum.pint (intMaxD0 ids + 1)) := by
      unfold recomputedNextId
      rw [hids]
      simp [pyMaxDefault0_pint, PyNum.addOne]
    simp only [loadCollection, hrec]
    cases hn : jLookup fs "next_id" with
    | none =>
        simp [hre, pyNumToJ]
    | some v =>
        simp [hbad v hn, hre, pyNumToJ]
  · exact (jLookup_jSet_ne fs "next_id" key (.jint (intMaxD0 ids + 1)) hkey).trans hrec
  · intro h; subst h; rfl

/-- C1, witness for the amended theorem: loading
`{"clients": [{"id": 4}], "next_id": "z"}` keeps the record and recomputes
next_id as 5. -/
theorem load_salvages_records_witness :
    loadCollection "clients"
        (.jobj [("clients", .jarr [.jobj [("id", .jint 4)]]), ("next_id", .jstr "z")]) =
      .jobj [("clients", .jarr [.jobj [("id", .jint 4)]]), ("next_id", .jint 5)] :=
  (load_salvages_records "clients"
      [("clients", .jarr [.jobj [("id", .jint 4)]]), ("next_id", .jstr "z")]
      [.jobj [("id", .jint 4)]] [4]
      (by decide) rfl rfl
      (fun v hv => by
        have hv2 : jLookup
            [("clients", JValue.jarr [JValue.jobj [("id", JValue.jint 4)]]),
             ("next_id", JValue.jstr "z")] "next_id" = some (JValue.jstr "z") := rfl
        rw [hv2] at hv
        cases hv
        rfl)).2.1

/-! ## Helper lemmas for the operation layer -/

theorem add_client_eq (v : String → Bool) (t1 t2 name email : String)
    (phone address company : Option String) (db : ClientsDB)
    (cl : StoredClient) (db2 : ClientsDB)
    (h : add_client v t1 t2 name email phone address company db = some (cl, db2)) :
    cl = { id := db.next_id, name := name, email := email, phone := phone,
           address := address, company := company,
           created_at := t1, updated_at := t2 } ∧
    db2 = { clients := db.clients ++ [cl], next_id := db.next_id + 1 } := by
  unfold add_client at h
  by_cases hc : name ≠ "" ∧ v email = true
  · rw [if_pos hc] at h
    injection h with h'
    obtain ⟨h1, h2⟩ := Prod.mk.inj h'
    subst h1
    subst h2
    exact ⟨rfl, rfl⟩
  · rw [if_neg hc] at h
    exact absurd h (by simp)

theorem reachable_ids_lt_next {db : ClientsDB} (h : ReachableC db) :
    ∀ c ∈ db.clients, c.id < db.next_id := by
  induction h with
  | init => simp
  | add v t1 t2 name email phone address company db cl db2 hr heq ih =>
      obtain ⟨hcl, hdb⟩ := add_client_eq v t1 t2 name email phone address company
        db cl db2 heq
      subst hdb
      intro c hc
      simp only [List.mem_append, List.mem_singleton] at hc
      rcases hc with hc | hc
      · exact lt_trans (ih c hc) (by simp)
      · subst hc
        rw [hcl]
        simp

theorem find_id_append_fresh (l : List StoredClient) (cl : StoredClient)
    (h : ∀ c ∈ l, c.id ≠ cl.id) :
    (l ++ [cl]).find? (fun c => c.id == cl.id) = some cl := by
  induction l with
  | nil => simp [List.find?]
  | cons x xs ih =>
      have hx : (x.id == cl.id) = false :=
        beq_eq_false_iff_ne.mpr (h x (by simp))
      simp only [List.cons_append, List.find?, hx]
      exact ih (fun c hc => h c (by simp [hc]))

/-- C3: on any reachable clients state, a successful `add_client` assigns
the collection's current next_id as the new client's id; that id is
strictly greater than (hence distinct from) every id already in the
collection; the new state appends the client and increments next_id by
one; a subsequent `get_client` with the new id returns exactly the stored
client; and the invariant "next_id exceeds every stored id" is preserved. -/
theorem add_client_fresh_id (v : String → Bool) (t1 t2 name email : String)
    (phone address company : Option String) (db : ClientsDB)
    (cl : StoredClient) (db2 : ClientsDB)
    (hr : ReachableC db)
    (h : add_client v t1 t2 name email phone address company db = some (cl, db2)) :
    cl.id = db.next_id ∧
    (∀ c ∈ db.clients, c.id < cl.id ∧ c.id ≠ cl.id) ∧
    db2.clients = db.clients ++ [cl] ∧
    db2.next_id = db.next_id + 1 ∧
    get_client db2 cl.id = some cl ∧
    (∀ c ∈ db2.clients, c.id < db2.next_id) := by
  obtain ⟨hcl, hdb⟩ := add_client_eq v t1 t2 name email phone address company
    db cl db2 h
  have hinv := reachable_ids_lt_next hr
  have hid : cl.id = db.next_id := by rw [hcl]
  have hlt : ∀ c ∈ db.clients, c.id < cl.id ∧ c.id ≠ cl.id := by
    intro c hc
    have := hinv c hc
    rw [hid]
    exact ⟨this, ne_of_lt this⟩
  refine ⟨hid, hlt, by rw [hdb], by rw [hdb], ?_, ?_⟩
  · rw [hdb]
    unfold get_client get_client_by_id
    exact find_id_append_fresh db.clients cl (fun c hc => (hlt c hc).2)
  · have hnext2 : ReachableC db2 :=
      ReachableC.add v t1 t2 name email phone address company db cl db2 hr h
    exact reachable_ids_lt_next hnext2

/-- The client record "Alice" as `add_client` stores it on a fresh store
with both clock readings equal to "T0" (used in concrete instances). -/
def aliceT0 : StoredClient :=
  { id := 1, name := "Alice", email := "alice@example.com", phone := none,
    address := none, company := none, created_at := "T0", updated_at := "T0" }

/-- C3, witness: adding "Alice" to the fresh store assigns id 1 and
`get_client 1` returns exactly the stored record. -/
theorem add_client_fresh_id_witness :
    get_client { clients := [aliceT0], next_id := 2 } 1 = some aliceT0 :=
  (add_client_fresh_id (fun _ => true) "T0" "T0" "Alice" "alice@example.com"
    none none none { clients := [], next_id := 1 } aliceT0
    { clients := [aliceT0], next_id := 2 }
    ReachableC.init rfl).2.2.2.2.1

/-- The client record created when the two clock readings differ by one
microsecond (used in concrete instances). -/
def aliceSkewed : StoredClient :=
  { id := 1, name := "Alice", email := "alice@example.com", phone := none,
    address := none, company := none,
    created_at := "2024-01-01T00:00:00.000001",
    updated_at := "2024-01-01T00:00:00.000002" }

/-- C9, counterexample: `add_client` reads the clock twice (src/server.py
lines 61 and 62); when the two readings differ by a microsecond the
created record has `created_at ≠ updated_at`, refuting the claim that
they are always equal. -/
theorem add_client_timestamps_cex :
    add_client (fun _ => true)
        "2024-01-01T00:00:00.000001" "2024-01-01T00:00:00.000002"
        "Alice" "alice@example.com" none none none
        { clients := [], next_id := 1 } =
      some (aliceSkewed, { clients := [aliceSkewed], next_id := 2 }) ∧
    aliceSkewed.created_at ≠ aliceSkewed.updated_at :=
  ⟨rfl, by decide⟩

/-- C9, amended: the created client's `created_at` and `updated_at` are
the values of the first and second `datetime.now().isoformat()` readings
made during the call; in particular they are equal whenever the two
readings return the same timestamp, but nothing forces that. -/
theorem add_client_timestamps (v : String → Bool) (t1 t2 name email : String)
    (phone address company : Option String) (db : ClientsDB)
    (cl : StoredClient) (db2 : ClientsDB)
    (h : add_client v t1 t2 name email phone address company db = some (cl, db2)) :
    cl.created_at = t1 ∧ cl.updated_at = t2 ∧ (t1 = t2 → cl.created_at = cl.updated_at) := by
  obtain ⟨hcl, -⟩ := add_client_eq v t1 t2 name email phone address company
    db cl db2 h
  subst hcl
  exact ⟨rfl, rfl, fun ht => by simp [ht]⟩

/-- C9, witness for the amended theorem: with both clock readings equal to
"T0" the created record carries created_at = updated_at = "T0". -/
theorem add_client_timestamps_witness :
    aliceT0.created_at = "T0" ∧ aliceT0.updated_at = "T0" :=
  have h := add_client_timestamps (fun _ => true) "T0" "T0" "Alice"
    "alice@example.com" none none none { clients := [], next_id := 1 }
    aliceT0 { clients := [aliceT0], next_id := 2 } rfl
  ⟨h.1, h.2.1⟩

theorem create_invoice_ok_eq (cdb : ClientsDB) (db : InvoicesDB) (client_id : Int)
    (items : List RawItem) (notes due_date : Option String) (status now : String)
    (inv : StoredInvoice) (db2 : InvoicesDB)
    (h : create_invoice cdb db client_id items notes due_date status now =
      .ok (inv, db2)) :
    ∃ client goodItems,
      get_client_by_id cdb client_id = some client ∧
      validateItems 0 items = .ok goodItems ∧
      inv = { id := db.next_id, client_id := client_id,
              client_name := client.name, items := goodItems,
              status := pyLower status, notes := notes, created_at := now,
              due_date := due_date,
              total := pySum (goodItems.map fun it => it.quantity * it.unit_price) } ∧
      db2 = { invoices := db.invoices ++ [inv], next_id := db.next_id + 1 } := by
  unfold create_invoice at h
  cases hc : get_client_by_id cdb client_id with
  | none => rw [hc] at h; exact absurd h (by simp)
  | some client =>
      rw [hc] at h
      dsimp only at h
      by_cases hs : valid_statuses.contains (pyLower status) = false
      · rw [if_pos hs] at h; exact absurd h (by simp)
      · rw [if_neg hs] at h
        by_cases he : items.isEmpty = true
        · rw [if_pos he] at h; exact absurd h (by simp)
        · rw [if_neg he] at h
          cases hv : validateItems 0 items with
          | error e => rw [hv] at h; exact absurd h (by simp)
          | ok goodItems =>
              rw [hv] at h
              injection h with h'
              obtain ⟨h1, h2⟩ := Prod.mk.inj h'
              exact ⟨client, goodItems, rfl, rfl, h1.symm, by rw [← h2, ← h1]⟩

/-- C4: a successful `create_invoice` persists the new invoice with its
`total` equal to the sum over the stored items of
`quantity × unit_price`. -/
theorem create_invoice_total (cdb : ClientsDB) (db : InvoicesDB) (client_id : Int)
    (items : List RawItem) (notes due_date : Option String) (status now : String)
    (inv : StoredInvoice) (db2 : InvoicesDB)
    (h : create_invoice cdb db client_id items notes due_date status now =
      .ok (inv, db2)) :
    inv.total = pySum (inv.items.map fun it => it.quantity * it.unit_price) ∧
    db2.invoices = db.invoices ++ [inv] := by
  obtain ⟨client, goodItems, -, -, h1, h2⟩ :=
    create_invoice_ok_eq cdb db client_id items notes due_date status now inv db2 h
  subst h1
  subst h2
  exact ⟨rfl, rfl⟩

/-- A clients store holding only "Alice" (used in concrete instances). -/
def aliceStore : ClientsDB := { clients := [aliceT0], next_id := 2 }

/-- The two example items of the claim: ("A", qty 2, price 10) and
("B", qty 1, price 5), fully present and valid. -/
def exampleItems : List RawItem :=
  [{ hasDescription := true, hasQuantity := true, hasUnitPrice := true,
     description := "A", quantity := 2, unit_price := 10 },
   { hasDescription := true, hasQuantity := true, hasUnitPrice := true,
     description := "B", quantity := 1, unit_price := 5 }]

/-- The invoice `create_invoice` stores for `exampleItems`. -/
def exampleInvoice : StoredInvoice :=
  { id := 1, client_id := 1, client_name := "Alice",
    items := [⟨"A", 2, 10⟩, ⟨"B", 1, 5⟩], status := "draft", notes := none,
    created_at := "T1", due_date := none,
    total := pySum ([⟨"A", 2, 10⟩, ⟨"B", 1, 5⟩].map
      fun it : StoredItem => it.quantity * it.unit_price) }

/-- C4, witness: invoicing Alice for the claim's example items
`[{desc:"A",qty:2,price:10},{desc:"B",qty:1,price:5}]` stores a total of
`2·10 + 1·5 = 25`. -/
theorem create_invoice_total_witness :
    create_invoice aliceStore { invoices := [], next_id := 1 } 1 exampleItems
        none none "draft" "T1" =
      .ok (exampleInvoice, { invoices := [exampleInvoice], next_id := 2 }) ∧
    exampleInvoice.total =
      pySum (exampleInvoice.items.map fun it => it.quantity * it.unit_price) ∧
    exampleInvoice.total = 25 := by
  refine ⟨rfl, ?_, ?_⟩
  · exact (create_invoice_total aliceStore { invoices := [], next_id := 1 } 1
      exampleItems none none "draft" "T1" exampleInvoice
      { invoices := [exampleInvoice], next_id := 2 } rfl).1
  · show pySum ([(2 : Rat) * 10, (1 : Rat) * 5]) = 25
    norm_num [pySum]

theorem validateItems_missing_at (it : RawItem) (post : List RawItem) :
    ∀ (pre : List RawItem) (i : Nat),
      (∀ p ∈ pre, missingFields p = [] ∧ itemOk p = true) →
      missingFields it ≠ [] →
      validateItems i (pre ++ it :: post) =
        .error (.itemMissingFields (i + pre.length + 1) (missingFields it))
  | [], i, _, hmiss => by
      simp only [List.nil_append, validateItems, if_pos hmiss, List.length_nil]
  | p :: ps, i, hpre, hmiss => by
      obtain ⟨hm, hok⟩ := hpre p (by simp)
      have ih := validateItems_missing_at it post ps (i + 1)
        (fun q hq => hpre q (by simp [hq])) hmiss
      have hidx : i + 1 + ps.length + 1 = i + (ps.length + 1) + 1 := by omega
      rw [hidx] at ih
      simp only [List.cons_append, validateItems, hm, hok, List.length_cons]
      simp [ih]

theorem validateItems_invalid_at (it : RawItem) (post : List RawItem) :
    ∀ (pre : List RawItem) (i : Nat),
      (∀ p ∈ pre, missingFields p = [] ∧ itemOk p = true) →
      missingFields it = [] →
      itemOk it = false →
      validateItems i (pre ++ it :: post) =
        .error (.itemInvalid (i + pre.length + 1))
  | [], i, _, hmiss, hbad => by
      simp only [List.nil_append, validateItems, hmiss, hbad, List.length_nil]
      simp
  | p :: ps, i, hpre, hmiss, hbad => by
      obtain ⟨hm, hok⟩ := hpre p (by simp)
      have ih := validateItems_invalid_at it post ps (i + 1)
        (fun q hq => hpre q (by simp [hq])) hmiss hbad
      have hidx : i + 1 + ps.length + 1 = i + (ps.length + 1) + 1 := by omega
      rw [hidx] at ih
      simp only [List.cons_append, validateItems, hm, hok, List.length_cons]
      simp [ih]

/-- C2: `create_invoice` applies its failure checks in a fixed order —
client existence, then status enum, then item presence, then per item in
list order with the missing-field check before field validation, errors
carrying the 1-based item index — and the first failing check determines
the error envelope.  In particular a non-existent client_id yields the
client-not-found envelope whatever the items are. -/
theorem create_invoice_check_order (cdb : ClientsDB) (db : InvoicesDB)
    (client_id : Int) (items : List RawItem) (notes due_date : Option String)
    (status now : String) :
    (get_client_by_id cdb client_id = none →
      create_invoice cdb db client_id items notes due_date status now =
        .error (.clientNotFound client_id)) ∧
    (get_client_by_id cdb client_id ≠ none →
      valid_statuses.contains (pyLower status) = false →
      create_invoice cdb db client_id items notes due_date status now =
        .error .invalidStatus) ∧
    (get_client_by_id cdb client_id ≠ none →
      valid_statuses.contains (pyLower status) = true →
      items = [] →
      create_invoice cdb db client_id items notes due_date status now =
        .error .noItems) ∧
    (∀ pre it post,
      get_client_by_id cdb client_id ≠ none →
      valid_statuses.contains (pyLower status) = true →
      items = pre ++ it :: post →
      (∀ p ∈ pre, missingFields p = [] ∧ itemOk p = true) →
      missingFields it ≠ [] →
      create_invoice cdb db client_id items notes due_date status now =
        .error (.itemMissingFields (pre.length + 1) (missingFields it))) ∧
    (∀ pre it post,
      get_client_by_id cdb client_id ≠ none →
      valid_statuses.contains (pyLower status) = true →
      items = pre ++ it :: post →
      (∀ p ∈ pre, missingFields p = [] ∧ itemOk p = true) →
      missingFields it = [] →
      itemOk it = false →
      create_invoice cdb db client_id items notes due_date status now =
        .error (.itemInvalid (pre.length + 1))) := by
  refine ⟨?_, ?_, ?_, ?_, ?_⟩
  · intro h
    simp [create_invoice, h]
  · intro hne hs
    obtain ⟨c, hc⟩ := Option.ne_none_iff_exists'.mp hne
    unfold create_invoice
    rw [hc]
    dsimp only
    rw [if_pos hs]
  · intro hne hs hit
    obtain ⟨c, hc⟩ := Option.ne_none_iff_exists'.mp hne
    subst hit
    unfold create_invoice
    rw [hc]
    dsimp only
    rw [if_neg (by rw [hs]; simp)]
    simp
  · intro pre it post hne hs hit hpre hmiss
    obtain ⟨c, hc⟩ := Option.ne_none_iff_exists'.mp hne
    subst hit
    have hv := validateItems_missing_at it post pre 0 hpre hmiss
    rw [Nat.zero_add] at hv
    unfold create_invoice
    rw [hc]
    dsimp only
    rw [if_neg (by rw [hs]; simp)]
    rw [if_neg (by simp)]
    rw [hv]
  · intro pre it post hne hs hit hpre hmiss hbad
    obtain ⟨c, hc⟩ := Option.ne_none_iff_exists'.mp hne
    subst hit
    have hv := validateItems_invalid_at it post pre 0 hpre hmiss hbad
    rw [Nat.zero_add] at hv
    unfold create_invoice
    rw [hc]
    dsimp only
    rw [if_neg (by rw [hs]; simp)]
    rw [if_neg (by simp)]
    rw [hv]

/-- C2, witness: with valid items but the non-existent client id 99,
`create_invoice` returns the client-not-found envelope. -/
theorem create_invoice_check_order_witness :
    create_invoice aliceStore { invoices := [], next_id := 1 } 99 exampleItems
      none none "draft" "T1" = .error (.clientNotFound 99) :=
  (create_invoice_check_order aliceStore { invoices := [], next_id := 1 } 99
    exampleItems none none "draft" "T1").1 rfl

theorem setStatusFirst_at (invoice_id : Int) (st : String) (inv : StoredInvoice)
    (post : List StoredInvoice) :
    ∀ pre : List StoredInvoice,
      (∀ p ∈ pre, p.id ≠ invoice_id) →
      inv.id = invoice_id →
      setStatusFirst invoice_id st (pre ++ inv :: post) =
        some (pre ++ { inv with status := st } :: post, { inv with status := st })
  | [], _, hid => by simp [setStatusFirst, hid]
  | p :: ps, hpre, hid => by
      have hp : ¬ (p.id = invoice_id) := hpre p (by simp)
      have ih := setStatusFirst_at invoice_id st inv post ps
        (fun q hq => hpre q (by simp [hq])) hid
      simp [setStatusFirst, hp, ih]

/-- C5: `update_invoice_status` with a status whose lowercase form is
outside the enum returns the invalid-status envelope and leaves the
stored collection untouched; with an enum status and a stored invoice
carrying the requested id, that invoice's status is set to the lowercase
form and persisted, every other field (and every other invoice, and
next_id) unchanged. -/
theorem update_invoice_status_spec (db : InvoicesDB) (invoice_id : Int)
    (status : String) :
    (valid_statuses.contains (pyLower status) = false →
      update_invoice_status db invoice_id status = (.invalidStatus, db)) ∧
    (valid_statuses.contains (pyLower status) = true →
      ∀ pre inv post,
        db.invoices = pre ++ inv :: post →
        (∀ p ∈ pre, p.id ≠ invoice_id) →
        inv.id = invoice_id →
        update_invoice_status db invoice_id status =
          (.updated { inv with status := pyLower status },
           { invoices := pre ++ { inv with status := pyLower status } :: post,
             next_id := db.next_id })) := by
  constructor
  · intro hs
    unfold update_invoice_status
    rw [if_pos hs]
  · intro hs pre inv post hdb hpre hid
    unfold update_invoice_status
    rw [if_neg (by rw [hs]; simp)]
    rw [hdb, setStatusFirst_at invoice_id (pyLower status) inv post pre hpre hid]

/-- C5, witness: updating the stored invoice 1 with "PAID" persists
status "paid" and changes nothing else; updating with "bogus" returns the
invalid-status envelope and the untouched state. -/
theorem update_invoice_status_spec_witness :
    update_invoice_status { invoices := [exampleInvoice], next_id := 2 } 1 "PAID" =
      (.updated { exampleInvoice with status := "paid" },
       { invoices := [{ exampleInvoice with status := "paid" }], next_id := 2 }) ∧
    update_invoice_status { invoices := [exampleInvoice], next_id := 2 } 1 "bogus" =
      (.invalidStatus, { invoices := [exampleInvoice], next_id := 2 }) :=
  ⟨(update_invoice_status_spec { invoices := [exampleInvoice], next_id := 2 }
      1 "PAID").2 rfl [] exampleInvoice [] rfl (by simp) rfl,
   (update_invoice_status_spec { invoices := [exampleInvoice], next_id := 2 }
      1 "bogus").1 rfl⟩

/-- The claim-side revenue: the sum of `total` over exactly the invoices
whose status is "paid", written as a direct recursion. -/
def specRevenue : List StoredInvoice → Rat
  | [] => 0
  | inv :: rest => (if inv.status = "paid" then inv.total else 0) + specRevenue rest

/-- The claim-side pending count: the number of invoices whose status is
"sent" or "overdue", written as a direct recursion. -/
def specPending : List StoredInvoice → Nat
  | [] => 0
  | inv :: rest =>
      (if inv.status = "sent" ∨ inv.status = "overdue" then 1 else 0) + specPending rest

theorem pySum_cons (x : Rat) (l : List Rat) : pySum (x :: l) = x + pySum l := by
  have key : ∀ (l : List Rat) (a b : Rat),
      l.foldl (fun u v => u + v) (a + b) = a + l.foldl (fun u v => u + v) b := by
    intro l
    induction l with
    | nil => intro a b; rfl
    | cons y ys ih =>
        intro a b
        simp only [List.foldl]
        rw [add_assoc, ih]
  unfold pySum
  simp only [List.foldl]
  have h2 := key l x 0
  rw [add_zero] at h2
  rw [zero_add]
  exact h2

theorem specRevenue_eq_filter (l : List StoredInvoice) :
    pySum ((l.filter fun inv => inv.status == "paid").map fun inv => inv.total) =
      specRevenue l := by
  induction l with
  | nil => rfl
  | cons inv rest ih =>
      by_cases h : inv.status = "paid"
      · rw [specRevenue, if_pos h]
        rw [List.filter_cons_of_pos (by simp [h])]
        rw [List.map_cons, pySum_cons, ih]
      · rw [specRevenue, if_neg h]
        rw [List.filter_cons_of_neg (by simp [h])]
        rw [ih, zero_add]

theorem specPending_eq_filter (l : List StoredInvoice) :
    (l.filter fun inv => inv.status == "sent" || inv.status == "overdue").length =
      specPending l := by
  induction l with
  | nil => rfl
  | cons inv rest ih =>
      by_cases h : inv.status = "sent" ∨ inv.status = "overdue"
      · rw [specPending, if_pos h]
        rw [List.filter_cons_of_pos (by simp [h])]
        rw [List.length_cons, ih, Nat.add_comm]
      · rw [specPending, if_neg h]
        rw [List.filter_cons_of_neg (by simp; tauto)]
        rw [ih, Nat.zero_add]

/-- C6: the dashboard's total_revenue is the sum of `total` over exactly
the invoices with status "paid", and pending_invoices counts exactly the
"sent"/"overdue" ones; prepending an invoice with status "sent" leaves
total_revenue unchanged (it is counted as pending instead). -/
theorem dashboard_revenue (cdb : ClientsDB) (db : InvoicesDB) :
    (dashboard cdb db).total_revenue = specRevenue db.invoices ∧
    (dashboard cdb db).pending_invoices = specPending db.invoices ∧
    (∀ (inv : StoredInvoice) (n : Int), inv.status = "sent" →
      (dashboard cdb { invoices := inv :: db.invoices, next_id := n }).total_revenue =
        (dashboard cdb db).total_revenue ∧
      (dashboard cdb { invoices := inv :: db.invoices, next_id := n }).pending_invoices =
        (dashboard cdb db).pending_invoices + 1) := by
  refine ⟨specRevenue_eq_filter db.invoices, specPending_eq_filter db.invoices, ?_⟩
  intro inv n hs
  dsimp only [dashboard]
  constructor
  · rw [specRevenue_eq_filter, specRevenue_eq_filter]
    rw [specRevenue, if_neg (by rw [hs]; decide), zero_add]
  · rw [specPending_eq_filter, specPending_eq_filter]
    rw [specPending, if_pos (Or.inl hs), Nat.add_comm]

/-- The example invoice with status "sent" (used in concrete instances). -/
def sentInvoice : StoredInvoice := { exampleInvoice with status := "sent" }

/-- C6, witness: prepending a "sent" invoice to an empty store leaves
total_revenue unchanged. -/
theorem dashboard_revenue_witness :
    (dashboard aliceStore { invoices := [sentInvoice], next_id := 2 }).total_revenue =
      (dashboard aliceStore { invoices := [], next_id := 2 }).total_revenue :=
  ((dashboard_revenue aliceStore { invoices := [], next_id := 2 }).2.2
    sentInvoice 2 rfl).1

/-- C7: with a non-empty company filter, a client is returned iff it
passes every provided filter (AND combination), and passing the company
filter requires a present, non-empty company that contains the filter
case-insensitively — so clients with an absent or empty company field are
always excluded.  The returned count is the number of returned clients. -/
theorem search_clients_company (db : ClientsDB) (q e : Option String) (f : String)
    (hf : f ≠ "") :
    (search_clients db q e (some f)).1 = (search_clients db q e (some f)).2.length ∧
    ∀ c, c ∈ (search_clients db q e (some f)).2 ↔
      (c ∈ db.clients ∧ filterPass q c.name = true ∧ filterPass e c.email = true ∧
       ∃ comp, c.company = some comp ∧ comp ≠ "" ∧
         strIn (pyLower f) (pyLower comp) = true) := by
  refine ⟨rfl, ?_⟩
  intro c
  show c ∈ (db.clients.filter fun c =>
      filterPass q c.name && filterPass e c.email && companyPass (some f) c.company) ↔ _
  rw [List.mem_filter]
  constructor
  · rintro ⟨hc, hpass⟩
    rw [Bool.and_eq_true, Bool.and_eq_true] at hpass
    obtain ⟨⟨hq, he⟩, hcomp⟩ := hpass
    refine ⟨hc, hq, he, ?_⟩
    unfold companyPass at hcomp
    dsimp only at hcomp
    rw [if_pos hf] at hcomp
    cases hcc : c.company with
    | none => rw [hcc] at hcomp; exact absurd hcomp (by simp)
    | some comp =>
        rw [hcc] at hcomp
        dsimp only at hcomp
        by_cases hne : comp ≠ ""
        · rw [if_pos hne] at hcomp
          exact ⟨comp, rfl, hne, hcomp⟩
        · rw [if_neg hne] at hcomp
          exact absurd hcomp (by simp)
  · rintro ⟨hc, hq, he, comp, hcc, hne, hsub⟩
    refine ⟨hc, ?_⟩
    rw [Bool.and_eq_true, Bool.and_eq_true]
    refine ⟨⟨hq, he⟩, ?_⟩
    unfold companyPass
    dsimp only
    rw [if_pos hf, hcc]
    dsimp only
    rw [if_pos hne]
    exact hsub

/-- The client "Bob" whose company is "ACME Corp" (used in concrete
instances). -/
def bobAcme : StoredClient :=
  { id := 2, name := "Bob", email := "bob@example.com", phone := none,
    address := none, company := some "ACME Corp",
    created_at := "T1", updated_at := "T1" }

/-- C7, witness: filtering on company "Acme" returns Bob (company
"ACME Corp", matched case-insensitively) and excludes Alice, whose
company is unset. -/
theorem search_clients_company_witness :
    bobAcme ∈ (search_clients { clients := [aliceT0, bobAcme], next_id := 3 }
      none none (some "Acme")).2 ∧
    aliceT0 ∉ (search_clients { clients := [aliceT0, bobAcme], next_id := 3 }
      none none (some "Acme")).2 := by
  have h := search_clients_company { clients := [aliceT0, bobAcme], next_id := 3 }
    none none "Acme" (by decide)
  constructor
  · exact (h.2 bobAcme).mpr
      ⟨by simp, rfl, rfl, "ACME Corp", rfl, by decide, by decide⟩
  · intro hmem
    obtain ⟨-, -, -, comp, hcomp, -, -⟩ := (h.2 aliceT0).mp hmem
    exact Option.noConfusion hcomp

/-- C10: an empty-string `query`, `email` or `company` filter behaves
exactly like an omitted filter (Python truthiness ignores empty strings),
and `search_clients` with all filters empty or absent returns the whole
collection with its count. -/
theorem search_clients_empty_filters (db : ClientsDB) (q e comp : Option String) :
    search_clients db (some "") e comp = search_clients db none e comp ∧
    search_clients db q (some "") comp = search_clients db q none comp ∧
    search_clients db q e (some "") = search_clients db q e none ∧
    search_clients db none none none = (db.clients.length, db.clients) ∧
    search_clients db (some "") (some "") (some "") = (db.clients.length, db.clients) := by
  have hq : ∀ s, filterPass (some "") s = filterPass none s := by
    intro s; rfl
  have hcomp : ∀ o, companyPass (some "") o = companyPass none o := by
    intro o; rfl
  refine ⟨?_, ?_, ?_, ?_, ?_⟩
  · simp [search_clients, hq]
  · simp [search_clients, hq]
  · simp [search_clients, hcomp]
  · simp [search_clients, filterPass, companyPass]
  · simp [search_clients, hq, hcomp, filterPass, companyPass]

end InvoiceManager
